import Mathlib

/-!
Verification of the Maven RLM (Recursive Language Model) engine,
a shallow embedding of `src/maven_mcp/rlm.py`.

Modelling choices:
* Python strings are modelled as `List Char`.
* The external Anthropic sub-model service is modelled as an `Oracle`:
  a function from the full prompt to either an error message or a
  response (text plus token usage).  Wall-clock timestamps are modelled
  by a fixed ambient value `World.now`.
* Python dictionaries used as result objects are modelled as a structure
  whose fields are `Option`-valued: a field is `some v` exactly when the
  corresponding key is present in the dict.
* Python exceptions are modelled with `Except (List Char)`, the payload
  being `str(exception)`.
* Prompt templates (`str.format` with named placeholders) are modelled
  as Lean functions from the placeholder values to the formatted string.
* Regex search (`re.finditer(pattern, s, re.IGNORECASE)`) is modelled
  for literal (metacharacter-free) patterns: case-insensitive (ASCII)
  leftmost non-overlapping matching; the empty pattern yields the
  zero-width match at every position, as in Python.
* The field `invocations` on `RLMContext` is instrumentation added for
  specification purposes only: it counts how many times the sub-model
  oracle was consulted (the source has no such counter; its `sub_calls`
  log records only successful calls).
-/

/-- Response of the external sub-model service on success:
text plus token usage, mirroring `message.content[0].text` and
`message.usage`. -/
structure SubResponse where
  text : List Char
  input_tokens : Nat
  output_tokens : Nat
deriving Repr, DecidableEq

/-- One entry of `RLMContext.sub_calls`, as appended by `llm_query`
(rlm.py lines 187-195). -/
structure SubCallRecord where
  timestamp : List Char
  model : List Char
  prompt_preview : List Char
  context_chars : Nat
  response_preview : List Char
  input_tokens : Nat
  output_tokens : Nat
deriving Repr, DecidableEq

/-- Snapshot returned by `RLMContext.get_stats` (rlm.py lines 123-134).
`num_chunks = none` encodes the string value `"not chunked"`. -/
structure RLMStats where
  context_length : Nat
  context_type : List Char
  num_chunks : Option Nat
  chunk_size : Nat
  num_sub_calls : Nat
  total_input_tokens : Nat
  total_output_tokens : Nat
deriving Repr, DecidableEq

/-- The REPL environment of one RLM query (rlm.py class `RLMContext`).
The `variables` scratch dict is omitted: it is unused by every strategy.
`invocations` is specification-only instrumentation counting oracle
consultations (see module docstring). -/
structure RLMContext where
  context : List Char
  context_type : List Char
  context_length : Nat
  chunks : List (List Char)
  chunk_size : Nat
  sub_calls : List SubCallRecord
  total_input_tokens : Nat
  total_output_tokens : Nat
  invocations : Nat
deriving Repr, DecidableEq

/-- Constructing `RLMContext(context=ctx, context_type=ctype)`:
`__post_init__` sets `context_length = len(context)`. -/
def mkRLMContext (ctx : List Char) (ctype : List Char) : RLMContext :=
  { context := ctx
    context_type := ctype
    context_length := ctx.length
    chunks := []
    chunk_size := 0
    sub_calls := []
    total_input_tokens := 0
    total_output_tokens := 0
    invocations := 0 }

/-- Python slice `self.context[start:end]` for nonnegative indices
(rlm.py `get_chunk`). -/
def RLMContext.get_chunk (env : RLMContext) (start stop : Nat) : List Char :=
  (env.context.drop start).take (stop - start)

/-- The list comprehension
`[self.context[i:i+n] for i in range(0, len(self.context), n)]`
for `n > 0`: `range(0, len, n)` has `(len + n - 1) / n` elements. -/
def chunkPieces (n : Nat) (s : List Char) : List (List Char) :=
  (List.range ((s.length + n - 1) / n)).map (fun i => (s.drop (i * n)).take n)

/-- Method `chunk_by_size` (rlm.py lines 88-96), including the
invalidate-on-mismatch cache.  `range` with step 0 raises `ValueError`;
that is modelled by the `.error` branch. -/
def RLMContext.chunk_by_size (env : RLMContext) (n : Nat) :
    Except (List Char) (List (List Char) × RLMContext) :=
  if env.chunks = [] ∨ env.chunk_size ≠ n then
    if n = 0 then .error ("range() arg 3 must not be zero".data)
    else
      let cs := chunkPieces n env.context
      .ok (cs, { env with chunk_size := n, chunks := cs })
  else .ok (env.chunks, env)

/-- Boolean test that the sequence `d` occurs at the head of `s`. -/
def beginsWith (d s : List Char) : Bool := s.take d.length == d

/-- A successful `beginsWith` needs `s` at least as long as `d`. -/
theorem beginsWith_length {d s : List Char} (h : beginsWith d s = true) :
    d.length ≤ s.length := by
  unfold beginsWith at h
  have h2 : s.take d.length = d := by simpa using h
  have h3 := congrArg List.length h2
  simp [List.length_take] at h3
  omega

/-- Python `s.split(d)` for a nonempty separator `d = c :: ds`:
leftmost non-overlapping occurrences of `d` are removed and the
remaining pieces (possibly empty) are returned in order. -/
def pySplit (c : Char) (ds : List Char) (s : List Char) : List (List Char) :=
  if h : beginsWith (c :: ds) s then
    [] :: pySplit c ds (s.drop (ds.length + 1))
  else
    match s with
    | [] => [[]]
    | a :: r =>
      match pySplit c ds r with
      | [] => [[a]]
      | p :: ps => (a :: p) :: ps
termination_by s.length
decreasing_by
  · have hl := beginsWith_length h
    simp at hl ⊢
    omega
  · simp

/-- Method `chunk_by_delimiter` (rlm.py lines 98-100):
`self.context.split(delimiter)`.  Python raises
`ValueError: empty separator` on an empty delimiter. -/
def RLMContext.chunk_by_delimiter (env : RLMContext) (d : List Char) :
    Except (List Char) (List (List Char)) :=
  match d with
  | [] => .error ("empty separator".data)
  | c :: ds => .ok (pySplit c ds env.context)

/-- Python `d.join(pieces)`. -/
def joinWith (d : List Char) : List (List Char) → List Char
  | [] => []
  | [p] => p
  | p :: ps => p ++ d ++ joinWith d ps

/-- ASCII lower-casing of a string, modelling the case folding performed
by `re.IGNORECASE`. -/
def lowerList (s : List Char) : List Char := s.map Char.toLower

/-- Case-insensitive test that the pattern `p` matches at the head of `s`. -/
def matchCIAt (p s : List Char) : Bool :=
  lowerList (s.take p.length) == lowerList p

/-- A successful `matchCIAt` needs `s` at least as long as `p`. -/
theorem matchCIAt_length {p s : List Char} (h : matchCIAt p s = true) :
    p.length ≤ s.length := by
  unfold matchCIAt lowerList at h
  have h2 : (s.take p.length).map Char.toLower = p.map Char.toLower := by
    simpa using h
  have h3 := congrArg List.length h2
  simp [List.length_take] at h3
  omega

/-- Scanner underlying `re.finditer` for a nonempty literal pattern
`c :: ps`: leftmost, non-overlapping, case-insensitive; `i` is the
absolute offset of the head of `s` in the full context.  Returns the
list of `(start, end)` spans.  The first argument is recursion fuel:
every step consumes at least one character, so the wrapper's choice of
`s.length` always suffices; structural recursion on the fuel keeps the
scanner computable by the kernel. -/
def scanCI (c : Char) (ps : List Char) : Nat → List Char → Nat → List (Nat × Nat)
  | 0, _, _ => []
  | fuel + 1, s, i =>
    if matchCIAt (c :: ps) s then
      (i, i + (ps.length + 1)) ::
        scanCI c ps fuel (s.drop (ps.length + 1)) (i + (ps.length + 1))
    else
      match s with
      | [] => []
      | _ :: r => scanCI c ps fuel r (i + 1)

/-- Spans of `re.finditer(pattern, s, re.IGNORECASE)` for a literal
pattern: the empty pattern produces the zero-width match at every
position (as in Python); a nonempty pattern scans left to right without
overlaps. -/
def finditerLit (p : List Char) (s : List Char) : List (Nat × Nat) :=
  match p with
  | [] => (List.range (s.length + 1)).map (fun i => (i, i))
  | c :: ps => scanCI c ps s.length s 0

/-- One hit of `RLMContext.search`.  The source returns a dict with keys
`"match"`, `"start"`, `"end"`, `"context"`; `end` and `match` are
reserved words in Lean, so the fields are named `stop`, `match_text`,
and the window key `"context"` is named `window`. -/
structure SearchHit where
  match_text : List Char
  start : Nat
  stop : Nat
  window : List Char
deriving Repr, DecidableEq

/-- Method `search` (rlm.py lines 106-121): up to `max_results` matches,
each with a window `context[max(0, start-250) : min(len, end+250)]`.
Natural-number subtraction realises the `max(0, ...)` clamp. -/
def RLMContext.search (env : RLMContext) (p : List Char) (max_results : Nat) :
    List SearchHit :=
  ((finditerLit p env.context).take max_results).map (fun m =>
    let ws := m.1 - 250
    let we := min env.context.length (m.2 + 250)
    { match_text := (env.context.drop m.1).take (m.2 - m.1)
      start := m.1
      stop := m.2
      window := (env.context.drop ws).take (we - ws) })

/-- Method `get_stats` (rlm.py lines 123-134). -/
def RLMContext.get_stats (env : RLMContext) : RLMStats :=
  { context_length := env.context_length
    context_type := env.context_type
    num_chunks := if env.chunks.isEmpty then none else some env.chunks.length
    chunk_size := env.chunk_size
    num_sub_calls := env.sub_calls.length
    total_input_tokens := env.total_input_tokens
    total_output_tokens := env.total_output_tokens }

/-- Module-level configuration `RLM_CONFIG` (rlm.py lines 36-49).  The
values come from environment variables, so the development is
parameterised over them.  Fields not consulted by the engine logic
(`root_model`, `max_depth`, `timeout`) are omitted. -/
structure RLMConfig where
  sub_model : List Char
  max_chunk_chars : Nat
  max_sub_calls : Nat
deriving Repr, DecidableEq

/-- Ambient world: the external sub-model service (which may fail with
an exception whose `str` is the payload) and the current timestamp as
returned by `get_iso_timestamp()`. -/
structure World where
  oracle : List Char → Except (List Char) SubResponse
  now : List Char

/-- Truncation `s[:200] + "..." if len(s) > 200 else s` used for the
prompt and response previews of a sub-call record. -/
def preview200 (s : List Char) : List Char :=
  if 200 < s.length then s.take 200 ++ "...".data else s

/-- Prompt assembly in `llm_query` (rlm.py lines 171-173): a truthy
(non-`None`, nonempty) context chunk is appended behind a delimiter. -/
def buildFullPrompt (prompt : List Char) (contextArg : Option (List Char)) :
    List Char :=
  match contextArg with
  | some c =>
      if c.isEmpty then prompt
      else prompt ++ "\n\n---\nCONTEXT:\n".data ++ c ++ "\n---".data
  | none => prompt

/-- Function `llm_query` (rlm.py lines 141-203): consult the sub-model
once; on success append one `SubCallRecord` and update the token totals;
on any failure return `"ERROR: <message>"` and leave the environment's
log untouched.  Returns the response text and the updated environment.
The `invocations` bump is specification-only instrumentation. -/
def llm_query (w : World) (cfg : RLMConfig) (prompt : List Char)
    (contextArg : Option (List Char)) (model : Option (List Char))
    (env : RLMContext) : List Char × RLMContext :=
  let mdl := model.getD cfg.sub_model
  let full_prompt := buildFullPrompt prompt contextArg
  let env1 := { env with invocations := env.invocations + 1 }
  match w.oracle full_prompt with
  | .error e => ("ERROR: ".data ++ e, env1)
  | .ok resp =>
      let record : SubCallRecord :=
        { timestamp := w.now
          model := mdl
          prompt_preview := preview200 prompt
          context_chars := (match contextArg with
            | some c => c.length
            | none => 0)
          response_preview := preview200 resp.text
          input_tokens := resp.input_tokens
          output_tokens := resp.output_tokens }
      (resp.text,
        { env1 with
            sub_calls := env1.sub_calls ++ [record]
            total_input_tokens := env1.total_input_tokens + resp.input_tokens
            total_output_tokens := env1.total_output_tokens + resp.output_tokens })

/-- One element of the `chunk_results` list built by the map phase
(rlm.py lines 246-251). -/
structure ChunkResult where
  chunk_num : Nat
  chunk_start : Nat
  chunk_end : Nat
  result : List Char
deriving Repr, DecidableEq

/-- One element of the `extractions` list of the search-extract strategy
(rlm.py lines 324-328). -/
structure ExtractionRecord where
  match_text : List Char
  position : Nat
  extraction : List Char
deriving Repr, DecidableEq

/-- One element of the `history` list of the iterative strategy
(rlm.py lines 393-397). -/
structure IterationRecord where
  iteration : Nat
  chunk_preview : List Char
  result_preview : List Char
deriving Repr, DecidableEq

/-- Result object of a strategy or of `rlm_query`, modelling the Python
dict: a field is `some v` exactly when the key is present. -/
structure PyResult where
  success : Option Bool
  final_answer : Option (List Char)
  error : Option (List Char)
  chunk_results : Option (List ChunkResult)
  extractions : Option (List ExtractionRecord)
  num_matches : Option Nat
  num_processed : Option Nat
  patterns_tried : Option (List (List Char))
  history : Option (List IterationRecord)
  iterations : Option Nat
  stats : Option RLMStats
  query : Option (List Char)
  context_length : Option Nat
  strategy : Option (List Char)
  timestamp : Option (List Char)
  auto_strategy : Option (List Char)

/-- Result dict with no keys. -/
def PyResult.empty : PyResult :=
  ⟨none, none, none, none, none, none, none, none,
   none, none, none, none, none, none, none, none⟩

/-- Decimal rendering of a natural number, for f-string interpolation of
Python ints. -/
def natStr (n : Nat) : List Char := (Nat.repr n).data

/-- Map phase of `process_with_map_reduce` (rlm.py lines 235-252):
walk the chunks in order, breaking as soon as
`len(rlm_context.sub_calls) >= RLM_CONFIG["max_sub_calls"]`; each
surviving chunk issues one sub-call and contributes one `ChunkResult`.
`i` is the 0-based index of the head chunk, `total` the chunk count,
`ctxLen` the context length used for the `chunk_end` clamp. -/
def mapPhase (w : World) (cfg : RLMConfig)
    (map_prompt : List Char → Nat → Nat → List Char)
    (chunk_size total ctxLen : Nat) :
    List (List Char) → Nat → RLMContext → List ChunkResult × RLMContext
  | [], _, env => ([], env)
  | chunk :: rest, i, env =>
    if cfg.max_sub_calls ≤ env.sub_calls.length then ([], env)
    else
      let prompt := map_prompt chunk (i + 1) total
      let step := llm_query w cfg prompt none none env
      let cr : ChunkResult :=
        { chunk_num := i + 1
          chunk_start := i * chunk_size
          chunk_end := min ((i + 1) * chunk_size) ctxLen
          result := step.1 }
      let next := mapPhase w cfg map_prompt chunk_size total ctxLen rest (i + 1) step.2
      (cr :: next.1, next.2)

/-- Text `"=== Chunk N ===\n<result>"` joined with blank lines
(rlm.py lines 255-258). -/
def mapResultsText (rs : List ChunkResult) : List Char :=
  joinWith "\n\n".data
    (rs.map (fun r => "=== Chunk ".data ++ natStr r.chunk_num ++ " ===\n".data ++ r.result))

/-- Strategy `process_with_map_reduce` (rlm.py lines 210-270).  The
chunking step can raise (chunk size 0), hence the `Except` component;
the final environment is returned alongside so that sub-call telemetry
stays observable. -/
def process_with_map_reduce (w : World) (cfg : RLMConfig) (env : RLMContext)
    (map_prompt : List Char → Nat → Nat → List Char)
    (reduce_prompt : List Char → Nat → List Char)
    (chunk_size : Nat) : Except (List Char) PyResult × RLMContext :=
  match env.chunk_by_size chunk_size with
  | .error e => (.error e, env)
  | .ok (chunks, env1) =>
      let mp := mapPhase w cfg map_prompt chunk_size chunks.length
        env1.context_length chunks 0 env1
      let chunk_results := mp.1
      let final_prompt := reduce_prompt (mapResultsText chunk_results) chunk_results.length
      let red := llm_query w cfg final_prompt none none mp.2
      (.ok { PyResult.empty with
               success := some true
               final_answer := some red.1
               chunk_results := some chunk_results
               stats := some red.2.get_stats },
       red.2)

/-- Deduplication of overlapping matches (rlm.py lines 307-314): a match
is kept when its bucket key `(start // 1000, end // 1000)` has not been
seen before; `seen` models the growing `seen_ranges` set. -/
def dedupMatches (seen : List (Nat × Nat)) : List SearchHit → List SearchHit
  | [] => []
  | m :: rest =>
    let key := (m.start / 1000, m.stop / 1000)
    if key ∈ seen then dedupMatches seen rest
    else m :: dedupMatches (key :: seen) rest

/-- Extraction loop of the search-extract strategy (rlm.py lines
317-328): one sub-call per retained match. -/
def extractPhase (w : World) (cfg : RLMConfig)
    (extraction_prompt : List Char → List Char → List Char) :
    List SearchHit → RLMContext → List ExtractionRecord × RLMContext
  | [], env => ([], env)
  | m :: rest, env =>
    let prompt := extraction_prompt m.window m.match_text
    let step := llm_query w cfg prompt none none env
    let er : ExtractionRecord :=
      { match_text := m.match_text
        position := m.start
        extraction := step.1 }
    let next := extractPhase w cfg extraction_prompt rest step.2
    (er :: next.1, next.2)

/-- Text `"--- Match: M (position P) ---\n<extraction>"` joined with
blank lines (rlm.py lines 331-334). -/
def extractionsText (es : List ExtractionRecord) : List Char :=
  joinWith "\n\n".data
    (es.map (fun e => "--- Match: ".data ++ e.match_text ++ " (position ".data ++
      natStr e.position ++ ") ---\n".data ++ e.extraction))

/-- Strategy `process_with_search_and_extract` (rlm.py lines 273-347).
Every pattern is searched with the default `max_results = 10`; with no
hits at all the strategy is a cost-free no-op returning
`success=false`. -/
def process_with_search_and_extract (w : World) (cfg : RLMConfig)
    (env : RLMContext) (search_patterns : List (List Char))
    (extraction_prompt : List Char → List Char → List Char)
    (synthesis_prompt : List Char → List Char) :
    Except (List Char) PyResult × RLMContext :=
  let all_matches := (search_patterns.map (fun p => env.search p 10)).flatten
  if all_matches.isEmpty then
    (.ok { PyResult.empty with
             success := some false
             error := some ("No matching sections found".data)
             patterns_tried := some search_patterns },
     env)
  else
    let unique_matches := dedupMatches [] all_matches
    let ex := extractPhase w cfg extraction_prompt
      (unique_matches.take cfg.max_sub_calls) env
    let syn := llm_query w cfg (synthesis_prompt (extractionsText ex.1))
      none none ex.2
    (.ok { PyResult.empty with
             success := some true
             final_answer := some syn.1
             extractions := some ex.1
             num_matches := some all_matches.length
             num_processed := some ex.1.length
             stats := some syn.2.get_stats },
     syn.2)

/-- Outcome of the iterative loop.  `outputs` is specification-only
instrumentation holding every invocation's full response text (the
source keeps only truncated previews inside `history`). -/
structure IterOutcome where
  buffer : List Char
  history : List IterationRecord
  outputs : List (List Char)
  env : RLMContext

/-- Loop of `process_iteratively` (rlm.py lines 379-402): chunk 0 uses
the initial prompt, later chunks the iteration prompt over the running
buffer; the loop breaks right after the first response accepted by
`termination_check`. -/
def iterPhase (w : World) (cfg : RLMConfig)
    (initial_prompt : List Char → List Char)
    (iteration_prompt : List Char → List Char → Nat → Nat → List Char)
    (termination_check : List Char → Bool) (total : Nat) :
    List (List Char) → Nat → List Char → RLMContext → IterOutcome
  | [], _, buffer, env => ⟨buffer, [], [], env⟩
  | chunk :: rest, i, buffer, env =>
    let prompt :=
      if i = 0 then initial_prompt chunk
      else iteration_prompt buffer chunk (i + 1) total
    let step := llm_query w cfg prompt none none env
    let rcd : IterationRecord :=
      { iteration := i + 1
        chunk_preview := chunk.take 100 ++ "...".data
        result_preview := step.1.take 200 ++ "...".data }
    if termination_check step.1 then ⟨step.1, [rcd], [step.1], step.2⟩
    else
      let next := iterPhase w cfg initial_prompt iteration_prompt
        termination_check total rest (i + 1) step.1 step.2
      ⟨next.buffer, rcd :: next.history, step.1 :: next.outputs, next.env⟩

/-- Strategy `process_iteratively` (rlm.py lines 350-410): at most
`max_iterations` chunks are processed (`chunks[:max_iterations]`), while
`total_chunks` interpolated into the prompts stays the full count. -/
def process_iteratively (w : World) (cfg : RLMConfig) (env : RLMContext)
    (initial_prompt : List Char → List Char)
    (iteration_prompt : List Char → List Char → Nat → Nat → List Char)
    (termination_check : List Char → Bool)
    (max_iterations chunk_size : Nat) :
    Except (List Char) PyResult × RLMContext :=
  match env.chunk_by_size chunk_size with
  | .error e => (.error e, env)
  | .ok (chunks, env1) =>
      let it := iterPhase w cfg initial_prompt iteration_prompt
        termination_check chunks.length (chunks.take max_iterations) 0 [] env1
      (.ok { PyResult.empty with
               success := some true
               final_answer := some it.buffer
               iterations := some it.history.length
               history := some it.history
               stats := some it.env.get_stats },
       it.env)

/-- Helper for Python `query.split()`: accumulate the current token
(in reverse) while scanning. -/
def splitWsAux : List Char → List Char → List (List Char)
  | [], cur => if cur.isEmpty then [] else [cur.reverse]
  | ch :: rest, cur =>
    if ch.isWhitespace then
      if cur.isEmpty then splitWsAux rest []
      else cur.reverse :: splitWsAux rest []
    else splitWsAux rest (ch :: cur)

/-- Python `s.split()` with no argument: split on whitespace runs,
discarding empty tokens. -/
def splitWs (s : List Char) : List (List Char) := splitWsAux s []

/-- Boolean form of the Python `in` operator on strings: does `p` occur
(case-sensitively) as a contiguous subsequence of `s`? -/
def containsSeq (p s : List Char) : Bool :=
  (List.range (s.length + 1)).any (fun i => beginsWith p (s.drop i))

/-- ASCII upper-casing, modelling `str.upper()`. -/
def upperList (s : List Char) : List Char := s.map Char.toUpper

/-- Keyword arguments accepted by `rlm_query` (`**kwargs`): a field is
`some v` exactly when the caller passed the keyword. -/
structure RLMKwargs where
  context_type : Option (List Char)
  map_prompt : Option (List Char → Nat → Nat → List Char)
  reduce_prompt : Option (List Char → Nat → List Char)
  chunk_size : Option Nat
  search_patterns : Option (List (List Char))
  extraction_prompt : Option (List Char → List Char → List Char)
  synthesis_prompt : Option (List Char → List Char)
  initial_prompt : Option (List Char → List Char)
  iteration_prompt : Option (List Char → List Char → Nat → Nat → List Char)
  termination_check : Option (List Char → Bool)
  max_iterations : Option Nat

/-- Empty `**kwargs`. -/
def RLMKwargs.noArgs : RLMKwargs :=
  ⟨none, none, none, none, none, none, none, none, none, none, none⟩

/-- Default map prompt built by `rlm_query` (rlm.py lines 454-458). -/
def defaultMapPrompt (q : List Char) : List Char → Nat → Nat → List Char :=
  fun chunk cn tc =>
    "You are processing chunk ".data ++ natStr cn ++ "/".data ++ natStr tc ++
    " of a large document.\n\nOriginal query: ".data ++ q ++
    "\n\nExtract all information relevant to the query from this chunk:\n\n".data ++
    chunk

/-- Default reduce prompt (rlm.py lines 459-464); the `num_chunks`
format argument is unused by the default template. -/
def defaultReducePrompt (q : List Char) : List Char → Nat → List Char :=
  fun results _ =>
    "You processed a large document in chunks. Here are the findings from each chunk:\n\n".data ++
    results ++ "\n\nOriginal query: ".data ++ q ++
    "\n\nSynthesize these findings into a final comprehensive answer:".data

/-- Default extraction prompt (rlm.py lines 474-476); the `match` format
argument is unused by the default template. -/
def defaultExtractionPrompt (q : List Char) : List Char → List Char → List Char :=
  fun ctxWin _ =>
    "Extract information relevant to: ".data ++ q ++
    "\n\nFrom this section:\n".data ++ ctxWin

/-- Default synthesis prompt (rlm.py lines 477-479). -/
def defaultSynthesisPrompt (q : List Char) : List Char → List Char :=
  fun ex => "Based on these extractions, answer: ".data ++ q ++ "\n\n".data ++ ex

/-- Default initial prompt of the iterative strategy (rlm.py lines
488-491). -/
def defaultInitialPrompt (q : List Char) : List Char → List Char :=
  fun chunk =>
    "Starting to analyze a document for: ".data ++ q ++
    "\n\nFirst section:\n".data ++ chunk ++ "\n\nSummarize relevant findings:".data

/-- Default iteration prompt (rlm.py lines 492-496). -/
def defaultIterationPrompt (q : List Char) :
    List Char → List Char → Nat → Nat → List Char :=
  fun buffer chunk cn tc =>
    "Previous findings:\n".data ++ buffer ++ "\n\nNew section (".data ++
    natStr cn ++ "/".data ++ natStr tc ++ "):\n".data ++ chunk ++
    "\n\nUpdate your findings for: ".data ++ q

/-- Default termination predicate `default_termination` (rlm.py lines
497-498). -/
def defaultTermination : List Char → Bool :=
  fun r => containsSeq "ANSWER_FOUND".data r || containsSeq "FINAL_ANSWER".data r

/-- Dispatch of `rlm_query` over the three base strategies plus the
unknown-strategy fallback (rlm.py lines 452-507 and 549-553).  In the
`search_extract` branch, Python evaluates the fallback expression
`[query.split()[0]]` of `kwargs.get` eagerly, so a query without any
whitespace-separated token raises `IndexError` before any sub-call. -/
def rlm_dispatch (w : World) (cfg : RLMConfig) (q strat : List Char)
    (kwargs : RLMKwargs) (env : RLMContext) :
    Except (List Char) PyResult × RLMContext :=
  if strat = "map_reduce".data then
    process_with_map_reduce w cfg env
      (kwargs.map_prompt.getD (defaultMapPrompt q))
      (kwargs.reduce_prompt.getD (defaultReducePrompt q))
      (kwargs.chunk_size.getD cfg.max_chunk_chars)
  else if strat = "search_extract".data then
    match splitWs q with
    | [] => (.error ("list index out of range".data), env)
    | t :: _ =>
        process_with_search_and_extract w cfg env
          (kwargs.search_patterns.getD [t])
          (kwargs.extraction_prompt.getD (defaultExtractionPrompt q))
          (kwargs.synthesis_prompt.getD (defaultSynthesisPrompt q))
  else if strat = "iterative".data then
    process_iteratively w cfg env
      (kwargs.initial_prompt.getD (defaultInitialPrompt q))
      (kwargs.iteration_prompt.getD (defaultIterationPrompt q))
      (kwargs.termination_check.getD defaultTermination)
      (kwargs.max_iterations.getD 10)
      (kwargs.chunk_size.getD cfg.max_chunk_chars)
  else
    (.ok { PyResult.empty with
             success := some false
             error := some ("Unknown strategy: ".data ++ strat ++
               ". Use: map_reduce, search_extract, iterative, smart".data) },
     env)

/-- Metadata stamping (rlm.py lines 556-559). -/
def stampMeta (r : PyResult) (q : List Char) (clen : Nat) (strat ts : List Char) :
    PyResult :=
  { r with
      query := some q
      context_length := some clen
      strategy := some strat
      timestamp := some ts }

/-- Error dict of the top-level handler (rlm.py lines 563-572). -/
def errorMeta (e q : List Char) (clen : Nat) (strat ts : List Char) : PyResult :=
  { PyResult.empty with
      success := some false
      error := some e
      query := some q
      context_length := some clen
      strategy := some strat
      timestamp := some ts }

/-- Entry point `rlm_query` restricted to non-`smart` strategies, used
for the recursive call made by the `smart` branch (rlm.py lines
541-545): full pipeline with a fresh `RLMContext` and metadata
stamping. -/
def rlm_query_plain (w : World) (cfg : RLMConfig) (q ctx strat : List Char)
    (kwargs : RLMKwargs) : PyResult :=
  let env := mkRLMContext ctx (kwargs.context_type.getD ("document".data))
  match (rlm_dispatch w cfg q strat kwargs env).1 with
  | .ok r => stampMeta r q ctx.length strat w.now
  | .error e => errorMeta e q ctx.length strat w.now

/-- Sampling of the `smart` strategy (rlm.py lines 511-517): beginning,
middle and end windows of `min(5000, len // 10)` characters; with a
sample size of 0 the slice `context[-0:]` is the whole context, as in
Python. -/
def smartSamples (ctx : List Char) : List Char × List Char × List Char :=
  let ss := min 5000 (ctx.length / 10)
  let mid := ctx.length / 2
  let s0 := ctx.take ss
  let s1 := (ctx.drop (mid - ss / 2)).take ((mid + ss / 2) - (mid - ss / 2))
  let s2 := if ss = 0 then ctx else ctx.drop (ctx.length - ss)
  (s0, s1, s2)

/-- Classification prompt of the `smart` strategy (rlm.py lines
519-535). -/
def smartAnalysisPrompt (q s0 s1 s2 : List Char) : List Char :=
  "Analyze this document structure to determine the best processing strategy.\n\nQuery: ".data ++
  q ++ "\n\nDocument samples (beginning, middle, end):\n".data ++ s0 ++
  "\n---\n".data ++ s1 ++ "\n---\n".data ++ s2 ++
  "\n\nBased on the document structure and query, which strategy is best?\n1. MAP_REDUCE - for aggregation tasks that need to process everything\n2. SEARCH_EXTRACT - for finding specific information (needle in haystack)\n3. ITERATIVE - for tasks where understanding builds cumulatively\n\nRespond with just the strategy name and a brief reason.".data

/-- Body of `rlm_query` inside the `try` block (rlm.py lines 451-561):
either the `smart` classification followed by a recursive full query, or
the direct dispatch.  The returned environment carries the sub-call
telemetry of the outer `RLMContext` (for `smart`, the inner query uses
its own fresh environment, as in the source). -/
def rlm_query_body (w : World) (cfg : RLMConfig) (q ctx strat : List Char)
    (kwargs : RLMKwargs) : Except (List Char) PyResult × RLMContext :=
  let env := mkRLMContext ctx (kwargs.context_type.getD ("document".data))
  if strat = "smart".data then
    let smp := smartSamples ctx
    let step := llm_query w cfg (smartAnalysisPrompt q smp.1 smp.2.1 smp.2.2)
      none none env
    let choiceU := upperList step.1
    let inner :=
      if containsSeq "SEARCH".data choiceU then "search_extract".data
      else if containsSeq "ITERATIVE".data choiceU then "iterative".data
      else "map_reduce".data
    let r := rlm_query_plain w cfg q ctx inner kwargs
    (.ok { r with auto_strategy := some step.1 }, step.2)
  else rlm_dispatch w cfg q strat kwargs env

/-- Entry point `rlm_query` (rlm.py lines 417-572): run the body, stamp
metadata on success, convert any exception into the error dict.  The
function is total: no exception propagates to the caller. -/
def rlm_query (w : World) (cfg : RLMConfig) (q ctx strat : List Char)
    (kwargs : RLMKwargs) : PyResult :=
  match (rlm_query_body w cfg q ctx strat kwargs).1 with
  | .ok r => stampMeta r q ctx.length strat w.now
  | .error e => errorMeta e q ctx.length strat w.now

/-!
Concrete worlds, configurations and trivial prompt templates shared by
witnesses and counterexamples.
-/

/-- Sub-model service that always answers `"ok"`. -/
def wOk : World := ⟨fun _ => .ok ⟨"ok".data, 3, 4⟩, "2026-10-12T00:00:00Z".data⟩

/-- Sub-model service that always fails with message `"boom"`. -/
def wFail : World := ⟨fun _ => .error ("boom".data), "2026-10-12T00:00:00Z".data⟩

/-- Configuration with a sub-call budget of 1. -/
def cfgOne : RLMConfig := ⟨"sub-model".data, 200000, 1⟩

/-- Configuration with the default sub-call budget of 50. -/
def cfgStd : RLMConfig := ⟨"sub-model".data, 200000, 50⟩

/-- Trivial map template. -/
def tmplMap : List Char → Nat → Nat → List Char := fun chunk _ _ => chunk

/-- Trivial reduce template. -/
def tmplReduce : List Char → Nat → List Char := fun results _ => results

/-- Trivial extraction template. -/
def tmplExtract : List Char → List Char → List Char := fun a _ => a

/-- Trivial synthesis template. -/
def tmplSynth : List Char → List Char := fun a => a

/-!
Claim C8: fixed-size chunking concatenates back to the context.
-/

/-- Concatenating the first `k` fixed-size pieces yields the first
`k * n` characters. -/
theorem flatten_chunkPieces_range (n : Nat) (s : List Char) :
    ∀ k, ((List.range k).map (fun i => (s.drop (i * n)).take n)).flatten =
      s.take (k * n) := by
  intro k
  induction k with
  | zero => simp
  | succ k ih =>
      rw [List.range_succ]
      simp only [List.map_append, List.map_cons, List.map_nil,
        List.flatten_append, List.flatten_cons, List.flatten_nil, ih,
        List.append_nil]
      rw [Nat.succ_mul, List.take_add]

/-- Concatenation of all fixed-size chunks restores the context. -/
theorem flatten_chunkPieces (n : Nat) (s : List Char) (hn : 0 < n) :
    (chunkPieces n s).flatten = s := by
  unfold chunkPieces
  rw [flatten_chunkPieces_range]
  apply List.take_of_length_le
  have h1 := Nat.div_add_mod (s.length + n - 1) n
  have h2 : (s.length + n - 1) % n < n := Nat.mod_lt _ hn
  have h3 : ((s.length + n - 1) / n) * n = n * ((s.length + n - 1) / n) :=
    Nat.mul_comm _ _
  omega

/-- Claim C8 (confirmed): for every context string `C` and every chunk
size `S > 0`, `chunk_by_size(S)` on a fresh environment returns the
fixed-size pieces, and concatenating them in order yields exactly `C`. -/
theorem chunk_by_size_roundtrip (ct C : List Char) (S : Nat) (hS : 0 < S) :
    (mkRLMContext C ct).chunk_by_size S =
      .ok (chunkPieces S C,
        { mkRLMContext C ct with chunk_size := S, chunks := chunkPieces S C }) ∧
    (chunkPieces S C).flatten = C := by
  constructor
  · simp [RLMContext.chunk_by_size, mkRLMContext, Nat.pos_iff_ne_zero.mp hS]
  · exact flatten_chunkPieces S C hS

/-- Witness for C8 at Scenario A of the spec:
`"AAAAABBBBBCCCCC"` with size 5. -/
theorem chunk_by_size_roundtrip_witness :
    0 < 5 ∧ (chunkPieces 5 ("AAAAABBBBBCCCCC".data)).flatten = "AAAAABBBBBCCCCC".data :=
  ⟨by decide,
   (chunk_by_size_roundtrip ("document".data) ("AAAAABBBBBCCCCC".data) 5 (by decide)).2⟩

/-!
Claim C9: delimiter chunking joined with the delimiter restores the
context.
-/

/-- The Python split never returns an empty piece list. -/
theorem pySplit_ne_nil (c : Char) (ds s : List Char) : pySplit c ds s ≠ [] := by
  rw [pySplit]
  split
  · simp
  · split
    · simp
    · split <;> simp

/-- Join of a piece list whose head gained a character. -/
theorem joinWith_cons_head (d : List Char) (a : Char) (p : List Char)
    (ps : List (List Char)) :
    joinWith d ((a :: p) :: ps) = a :: joinWith d (p :: ps) := by
  cases ps <;> simp [joinWith]

/-- Unfolding of `pySplit` when the separator occurs at the head. -/
theorem pySplit_pos {c : Char} {ds s : List Char}
    (h : beginsWith (c :: ds) s = true) :
    pySplit c ds s = [] :: pySplit c ds (s.drop (ds.length + 1)) := by
  rw [pySplit]
  simp [h]

/-- Value of `pySplit` on the empty string. -/
theorem pySplit_nil (c : Char) (ds : List Char) : pySplit c ds [] = [[]] := by
  rw [pySplit]
  simp [beginsWith]

/-- Unfolding of `pySplit` when the separator does not occur at the
head of a nonempty string. -/
theorem pySplit_neg {c : Char} {ds : List Char} {a : Char} {r : List Char}
    (h : beginsWith (c :: ds) (a :: r) = false) :
    pySplit c ds (a :: r) =
      (match pySplit c ds r with
        | [] => [[a]]
        | p :: ps => (a :: p) :: ps) := by
  rw [pySplit]
  simp [h]

/-- Round trip of Python `split`/`join` for a nonempty separator,
by strong induction on the string length. -/
theorem joinWith_pySplit (c : Char) (ds : List Char) :
    ∀ n s, s.length ≤ n → joinWith (c :: ds) (pySplit c ds s) = s := by
  intro n
  induction n with
  | zero =>
      intro s hs
      have hnil : s = [] := List.eq_nil_of_length_eq_zero (by omega)
      subst hnil
      simp [pySplit_nil, joinWith]
  | succ n ih =>
      intro s hs
      by_cases h : beginsWith (c :: ds) s = true
      · rw [pySplit_pos h]
        have hlen := beginsWith_length h
        simp only [List.length_cons] at hlen
        obtain ⟨q, qs, hq⟩ :=
          List.exists_cons_of_ne_nil (pySplit_ne_nil c ds (s.drop (ds.length + 1)))
        have hih : joinWith (c :: ds) (pySplit c ds (s.drop (ds.length + 1))) =
            s.drop (ds.length + 1) := by
          apply ih
          simp
          omega
        rw [hq] at hih ⊢
        show [] ++ (c :: ds) ++ joinWith (c :: ds) (q :: qs) = s
        rw [hih]
        have htake : s.take (ds.length + 1) = c :: ds := by
          unfold beginsWith at h
          simpa using h
        calc [] ++ (c :: ds) ++ s.drop (ds.length + 1)
            = s.take (ds.length + 1) ++ s.drop (ds.length + 1) := by rw [htake]; rfl
          _ = s := List.take_append_drop _ _
      · have hb : beginsWith (c :: ds) s = false := by simpa using h
        match s with
        | [] => simp [pySplit_nil, joinWith]
        | a :: r =>
            obtain ⟨q, qs, hq⟩ := List.exists_cons_of_ne_nil (pySplit_ne_nil c ds r)
            rw [pySplit_neg hb, hq, joinWith_cons_head, ← hq]
            have hr : joinWith (c :: ds) (pySplit c ds r) = r := by
              apply ih
              simp at hs
              omega
            rw [hr]

/-- The delimiter never occurs immediately after one of its own
occurrences in `s` (the adjacency side condition of claim C9, stated
boundedly so it is decidable). -/
def noSelfAdjacent (d s : List Char) : Prop :=
  ∀ i < s.length,
    ¬(beginsWith d (s.drop i) = true ∧ beginsWith d (s.drop (i + d.length)) = true)

instance (d s : List Char) : Decidable (noSelfAdjacent d s) := by
  unfold noSelfAdjacent
  infer_instance

/-- Claim C9 (confirmed): for every context `C` and nonempty delimiter
`D = c :: ds` that never occurs adjacent to itself in `C`, joining the
pieces of `chunk_by_delimiter(D)` with `D` restores `C` exactly.  (The
adjacency hypothesis is not needed by the proof: the round trip holds
for every nonempty delimiter.) -/
theorem chunk_by_delimiter_roundtrip (ct C : List Char) (c : Char) (ds : List Char)
    (_hadj : noSelfAdjacent (c :: ds) C) :
    ((mkRLMContext C ct).chunk_by_delimiter (c :: ds)).map (joinWith (c :: ds)) =
      .ok C := by
  simp only [RLMContext.chunk_by_delimiter, mkRLMContext, Except.map]
  exact congrArg Except.ok (joinWith_pySplit c ds C.length C (Nat.le_refl _))

/-- Witness for C9 at `C = "aXbXc"`, `D = "X"`. -/
theorem chunk_by_delimiter_roundtrip_witness :
    noSelfAdjacent ['X'] ("aXbXc".data) ∧
    ((mkRLMContext ("aXbXc".data) ("document".data)).chunk_by_delimiter ['X']).map
      (joinWith ['X']) = .ok ("aXbXc".data) :=
  ⟨by decide,
   chunk_by_delimiter_roundtrip ("document".data) ("aXbXc".data) 'X' [] (by decide)⟩

/-!
Claim C4: search hit windows and offsets.
-/

/-- Every span emitted by the scanner starts at or after the scan
offset, has width exactly the pattern length, and ends inside the
scanned suffix (provided the fuel covers the string). -/
theorem scanCI_spans (c : Char) (ps : List Char) :
    ∀ (fuel : Nat) (s : List Char) (i : Nat) (m : Nat × Nat), s.length ≤ fuel →
      m ∈ scanCI c ps fuel s i →
      i ≤ m.1 ∧ m.2 = m.1 + (ps.length + 1) ∧ m.2 ≤ i + s.length := by
  intro fuel
  induction fuel with
  | zero =>
      intro s i m _ hm
      simp [scanCI] at hm
  | succ fuel ih =>
      intro s i m hs hm
      by_cases h : matchCIAt (c :: ps) s = true
      · simp only [scanCI, h, if_true] at hm
        have hlen := matchCIAt_length h
        simp only [List.length_cons] at hlen
        rcases List.mem_cons.mp hm with he | ht
        · subst he
          exact ⟨Nat.le_refl _, rfl, by simp; omega⟩
        · have hrec := ih (s.drop (ps.length + 1)) (i + (ps.length + 1)) m
            (by simp; omega) ht
          simp only [List.length_drop] at hrec
          exact ⟨by omega, hrec.2.1, by omega⟩
      · match s with
        | [] =>
            simp [scanCI, h] at hm
        | a :: r =>
            have hb : matchCIAt (c :: ps) (a :: r) = false := by simpa using h
            simp only [scanCI, hb, Bool.false_eq_true, if_false] at hm
            have hrec := ih r (i + 1) m (by simp at hs; omega) hm
            exact ⟨by omega, hrec.2.1, by simp; omega⟩

/-- Offsets of every `finditer` span: start and end are ordered and lie
inside the string; a nonempty pattern gives a nonempty span. -/
theorem finditerLit_spans (p s : List Char) (m : Nat × Nat)
    (hm : m ∈ finditerLit p s) :
    m.1 ≤ m.2 ∧ m.2 ≤ s.length ∧ (p ≠ [] → m.1 < m.2) := by
  match p with
  | [] =>
      unfold finditerLit at hm
      obtain ⟨i, hi, he⟩ := List.mem_map.mp hm
      subst he
      simp only [List.mem_range] at hi
      exact ⟨Nat.le_refl _, by simp; omega, by simp⟩
  | c :: ps =>
      unfold finditerLit at hm
      have hs := scanCI_spans c ps s.length s 0 m (Nat.le_refl _) hm
      exact ⟨by omega, by omega, fun _ => by omega⟩

/-- Claim C4, amended (the original 500-character bound fails): every
hit returned by `search` has offsets `start ≤ stop ≤ len(C)` — strictly
`start < stop` for a nonempty pattern — and its window carries at most
500 characters of surrounding context beyond the matched span, i.e.
`window.length ≤ (stop - start) + 500`. -/
theorem search_hit_bounds (p C ct : List Char) (maxR : Nat) (hit : SearchHit)
    (hmem : hit ∈ (mkRLMContext C ct).search p maxR) :
    hit.window.length ≤ (hit.stop - hit.start) + 500 ∧
    hit.start ≤ hit.stop ∧ hit.stop ≤ C.length ∧
    (p ≠ [] → hit.start < hit.stop) := by
  unfold RLMContext.search at hmem
  simp only [mkRLMContext] at hmem
  obtain ⟨m, hm_take, he⟩ := List.mem_map.mp hmem
  subst he
  have hm := List.mem_of_mem_take hm_take
  have hspan := finditerLit_spans p C m hm
  refine ⟨?_, hspan.1, hspan.2.1, fun hp => hspan.2.2 hp⟩
  simp only [List.length_take, List.length_drop]
  omega

/-- Context used by the C4 counterexample: a single `'a'` with 251
characters on each side. -/
def c4ctx : List Char := List.replicate 251 'x' ++ ['a'] ++ List.replicate 251 'x'

set_option maxRecDepth 100000 in
/-- Counterexample to claim C4 as stated: searching `c4ctx` for the
1-character pattern `"a"` returns one hit whose window is 501 characters
long, exceeding the claimed 500-character bound (the window spans the
match itself plus 250 characters on each side). -/
theorem search_window_counterexample :
    ((mkRLMContext c4ctx ("document".data)).search ['a'] 10).map
      (fun h => h.window.length) = [501] ∧
    ((mkRLMContext c4ctx ("document".data)).search ['a'] 10).all
      (fun h => h.window.length ≤ 500) = false := by
  constructor
  · rfl
  · rfl

/-- The hit produced by searching `"ab"` for `"a"`. -/
def c4hitSmall : SearchHit := ⟨['a'], 0, 1, "ab".data⟩

/-- Witness for the amended C4 theorem at a concrete hit. -/
theorem search_hit_bounds_witness :
    c4hitSmall ∈ (mkRLMContext ("ab".data) ("document".data)).search ['a'] 10 ∧
    (c4hitSmall.window.length ≤ (c4hitSmall.stop - c4hitSmall.start) + 500 ∧
     c4hitSmall.start ≤ c4hitSmall.stop ∧ c4hitSmall.stop ≤ ("ab".data).length ∧
     ((['a'] : List Char) ≠ [] → c4hitSmall.start < c4hitSmall.stop)) :=
  ⟨by decide,
   search_hit_bounds ['a'] ("ab".data) ("document".data) 10 c4hitSmall (by decide)⟩

/-!
Claim C3: invoker failure behaviour.
-/

/-- Claim C3, amended: on any failure of the sub-model service,
`llm_query` does not raise and returns `"ERROR: <message>"`, but — in
contrast to the original claim — it appends no `SubCallRecord`: the
environment's sub-call log and token totals are unchanged (the record
append sits after the service call inside the `try` block, so the
exception skips it). -/
theorem llm_query_failure (w : World) (cfg : RLMConfig) (prompt : List Char)
    (contextArg model : Option (List Char)) (env : RLMContext) (e : List Char)
    (hfail : w.oracle (buildFullPrompt prompt contextArg) = .error e) :
    llm_query w cfg prompt contextArg model env =
      ("ERROR: ".data ++ e, { env with invocations := env.invocations + 1 }) := by
  simp [llm_query, hfail]

/-- Witness for the amended C3 theorem under the always-failing
service. -/
theorem llm_query_failure_witness :
    llm_query wFail cfgOne ("p".data) none none
        (mkRLMContext ("ab".data) ("document".data)) =
      ("ERROR: ".data ++ "boom".data,
       { mkRLMContext ("ab".data) ("document".data) with
           invocations := (mkRLMContext ("ab".data) ("document".data)).invocations + 1 }) :=
  llm_query_failure wFail cfgOne ("p".data) none none
    (mkRLMContext ("ab".data) ("document".data)) ("boom".data) rfl

/-- Counterexample to claim C3 as stated: under a failing service the
result text is `"ERROR: boom"` but the sub-call log stays empty — no
`SubCallRecord` is appended for the failed call. -/
theorem llm_query_no_record_counterexample :
    (llm_query wFail cfgOne ("p".data) none none
        (mkRLMContext ("ab".data) ("document".data))).1 = "ERROR: boom".data ∧
    (llm_query wFail cfgOne ("p".data) none none
        (mkRLMContext ("ab".data) ("document".data))).2.sub_calls = [] :=
  ⟨rfl, rfl⟩

/-!
Claim C7: search-extract with no matching pattern is a cost-free no-op.
-/

/-- Claim C7 (confirmed): when no search pattern matches the context,
the search-extract strategy returns `success=false` with error
`"No matching sections found"` and the environment is returned
untouched — zero sub-calls are issued. -/
theorem search_extract_no_match (w : World) (cfg : RLMConfig) (env : RLMContext)
    (patterns : List (List Char))
    (ep : List Char → List Char → List Char) (sp : List Char → List Char)
    (h : ∀ p ∈ patterns, finditerLit p env.context = []) :
    process_with_search_and_extract w cfg env patterns ep sp =
      (.ok { PyResult.empty with
               success := some false
               error := some ("No matching sections found".data)
               patterns_tried := some patterns },
       env) := by
  have hall : (patterns.map (fun p => env.search p 10)).flatten = [] := by
    rw [List.flatten_eq_nil_iff]
    intro l hl
    obtain ⟨p, hp, he⟩ := List.mem_map.mp hl
    subst he
    unfold RLMContext.search
    rw [h p hp]
    rfl
  simp [process_with_search_and_extract, hall]

/-- Witness for C7 at Scenario B of the spec: pattern `"XYZ"` over a
context not containing it. -/
theorem search_extract_no_match_witness :
    (∀ p ∈ [("XYZ".data)],
      finditerLit p (mkRLMContext ("abc".data) ("document".data)).context = []) ∧
    process_with_search_and_extract wOk cfgStd
        (mkRLMContext ("abc".data) ("document".data)) [("XYZ".data)]
        tmplExtract tmplSynth =
      (.ok { PyResult.empty with
               success := some false
               error := some ("No matching sections found".data)
               patterns_tried := some [("XYZ".data)] },
       mkRLMContext ("abc".data) ("document".data)) :=
  ⟨by decide,
   search_extract_no_match wOk cfgStd (mkRLMContext ("abc".data) ("document".data))
     [("XYZ".data)] tmplExtract tmplSynth (by decide)⟩

/-!
Shared facts about the invoker's effect on the environment.
-/

/-- One invocation appends at most one record to the sub-call log. -/
theorem llm_query_sub_calls_le (w : World) (cfg : RLMConfig) (prompt : List Char)
    (contextArg model : Option (List Char)) (env : RLMContext) :
    (llm_query w cfg prompt contextArg model env).2.sub_calls.length ≤
      env.sub_calls.length + 1 := by
  unfold llm_query
  cases h : w.oracle (buildFullPrompt prompt contextArg) <;> simp [h]

/-- One invocation consults the oracle exactly once. -/
theorem llm_query_invocations (w : World) (cfg : RLMConfig) (prompt : List Char)
    (contextArg model : Option (List Char)) (env : RLMContext) :
    (llm_query w cfg prompt contextArg model env).2.invocations =
      env.invocations + 1 := by
  unfold llm_query
  cases h : w.oracle (buildFullPrompt prompt contextArg) <;> simp [h]

/-- A successful `chunk_by_size` never touches the sub-call log, the
invocation counter or the context. -/
theorem chunk_by_size_preserves (env : RLMContext) (n : Nat) :
    ∀ chunks env1, env.chunk_by_size n = .ok (chunks, env1) →
      env1.sub_calls = env.sub_calls ∧ env1.invocations = env.invocations ∧
      env1.context = env.context ∧ env1.context_length = env.context_length := by
  intro chunks env1 h
  unfold RLMContext.chunk_by_size at h
  split at h
  · split at h
    · exact absurd h (by simp)
    · simp only [Except.ok.injEq, Prod.mk.injEq] at h
      obtain ⟨h1, h2⟩ := h
      subst h2
      exact ⟨rfl, rfl, rfl, rfl⟩
  · simp only [Except.ok.injEq, Prod.mk.injEq] at h
    obtain ⟨h1, h2⟩ := h
    subst h2
    exact ⟨rfl, rfl, rfl, rfl⟩

/-!
Claim C5: a chunk size covering the whole context gives 1 map call and
1 reduce call.
-/

/-- With `0 < len(s) ≤ n` the fixed-size chunking is a single piece. -/
theorem chunkPieces_single (n : Nat) (s : List Char) (h1 : s ≠ [])
    (h2 : s.length ≤ n) : chunkPieces n s = [s.take n] := by
  unfold chunkPieces
  have hlen : 0 < s.length := List.length_pos.mpr h1
  have hdiv : (s.length + n - 1) / n = 1 := by
    apply Nat.div_eq_of_lt_le
    · omega
    · omega
  rw [hdiv]
  have hr : List.range 1 = [0] := rfl
  rw [hr]
  simp

/-- Evaluation of `chunk_by_size` on a freshly constructed
environment. -/
theorem chunk_by_size_fresh (C ct : List Char) (n : Nat) (hn : n ≠ 0) :
    (mkRLMContext C ct).chunk_by_size n =
      .ok (chunkPieces n C, ⟨C, ct, C.length, chunkPieces n C, n, [], 0, 0, 0⟩) := by
  simp [RLMContext.chunk_by_size, mkRLMContext, hn]

/-- The map phase over a single chunk, with budget available, issues
exactly one sub-call. -/
theorem mapPhase_single (w : World) (cfg : RLMConfig)
    (mp : List Char → Nat → Nat → List Char) (cs total ctxLen : Nat)
    (chunk : List Char) (env : RLMContext)
    (h : env.sub_calls.length < cfg.max_sub_calls) :
    mapPhase w cfg mp cs total ctxLen [chunk] 0 env =
      ([{ chunk_num := 1
          chunk_start := 0
          chunk_end := min cs ctxLen
          result := (llm_query w cfg (mp chunk 1 total) none none env).1 }],
       (llm_query w cfg (mp chunk 1 total) none none env).2) := by
  simp only [mapPhase]
  rw [if_neg (by omega)]
  simp [mapPhase]

/-- Claim C5, amended (the original claim fails on the empty context):
for every nonempty context `C`, chunk size `chunkSize ≥ len(C)` and a
positive sub-call budget, the map-reduce strategy consults the oracle
exactly twice — one map call over the single chunk, then one reduce
call — and reports exactly one chunk result. -/
theorem mapReduce_two_calls (w : World) (cfg : RLMConfig) (ct C : List Char)
    (mp : List Char → Nat → Nat → List Char) (rp : List Char → Nat → List Char)
    (csize : Nat) (hC : C ≠ []) (hcs : C.length ≤ csize)
    (hmax : 1 ≤ cfg.max_sub_calls) :
    (process_with_map_reduce w cfg (mkRLMContext C ct) mp rp csize).2.invocations = 2 ∧
    (process_with_map_reduce w cfg (mkRLMContext C ct) mp rp csize).1.map
      (fun r => (r.chunk_results.getD []).length) = .ok 1 := by
  have hlen : 0 < C.length := List.length_pos.mpr hC
  have hn : csize ≠ 0 := by omega
  have hcbs := chunk_by_size_fresh C ct csize hn
  rw [chunkPieces_single csize C hC hcs] at hcbs
  have henv1 :
      (⟨C, ct, C.length, [C.take csize], csize, [], 0, 0, 0⟩ :
        RLMContext).sub_calls.length < cfg.max_sub_calls := by
    simp
    omega
  constructor
  · simp only [process_with_map_reduce, hcbs]
    rw [mapPhase_single w cfg mp csize _ _ _ _ henv1]
    rw [llm_query_invocations, llm_query_invocations]
  · simp only [process_with_map_reduce, hcbs]
    rw [mapPhase_single w cfg mp csize _ _ _ _ henv1]
    simp [Except.map]

/-- Witness for the amended C5 theorem: context `"ab"`, chunk size 5,
default budget. -/
theorem mapReduce_two_calls_witness :
    (("ab".data : List Char) ≠ [] ∧ ("ab".data : List Char).length ≤ 5 ∧
      1 ≤ cfgStd.max_sub_calls) ∧
    ((process_with_map_reduce wOk cfgStd (mkRLMContext ("ab".data) ("document".data))
        tmplMap tmplReduce 5).2.invocations = 2 ∧
     (process_with_map_reduce wOk cfgStd (mkRLMContext ("ab".data) ("document".data))
        tmplMap tmplReduce 5).1.map
        (fun r => (r.chunk_results.getD []).length) = .ok 1) :=
  ⟨⟨by decide, by decide, by decide⟩,
   mapReduce_two_calls wOk cfgStd ("document".data) ("ab".data) tmplMap tmplReduce 5
     (by decide) (by decide) (by decide)⟩

/-- Counterexample to claim C5 as stated: on the empty context with
`chunkSize = 5 ≥ 0 = contextLength` there is no chunk at all, so the
map phase issues nothing and only the single reduce call occurs —
1 sub-call, not 2. -/
theorem mapReduce_two_calls_counterexample :
    (process_with_map_reduce wOk cfgStd (mkRLMContext [] ("document".data))
        tmplMap tmplReduce 5).2.invocations = 1 ∧
    (process_with_map_reduce wOk cfgStd (mkRLMContext [] ("document".data))
        tmplMap tmplReduce 5).2.invocations ≠ 2 ∧
    ([] : List Char).length ≤ 5 :=
  ⟨rfl, by decide, by decide⟩

/-!
Claim C6: the iterative strategy's invocation count, early stop and
final answer.
-/

/-- Behaviour of the iterative loop: one full output and one history
record per invocation, at most one invocation per chunk supplied, the
final buffer is the last output (or the initial buffer when no chunk is
processed), and every output except possibly the last fails the
termination test — the loop stops at the first accepted output. -/
theorem iterPhase_spec (w : World) (cfg : RLMConfig)
    (ip : List Char → List Char)
    (itp : List Char → List Char → Nat → Nat → List Char)
    (tc : List Char → Bool) (total : Nat) :
    ∀ (cs : List (List Char)) (i : Nat) (buffer : List Char) (env : RLMContext),
      (iterPhase w cfg ip itp tc total cs i buffer env).outputs.length =
        (iterPhase w cfg ip itp tc total cs i buffer env).history.length ∧
      (iterPhase w cfg ip itp tc total cs i buffer env).history.length ≤ cs.length ∧
      (iterPhase w cfg ip itp tc total cs i buffer env).buffer =
        (iterPhase w cfg ip itp tc total cs i buffer env).outputs.getLastD buffer ∧
      (∀ j, j + 1 < (iterPhase w cfg ip itp tc total cs i buffer env).outputs.length →
        tc ((iterPhase w cfg ip itp tc total cs i buffer env).outputs.getD j []) = false) := by
  intro cs
  induction cs with
  | nil =>
      intro i buffer env
      simp [iterPhase]
  | cons chunk rest ih =>
      intro i buffer env
      simp only [iterPhase]
      by_cases ht : tc (llm_query w cfg
          (if i = 0 then ip chunk else itp buffer chunk (i + 1) total)
          none none env).1 = true
      · simp only [ht, if_true]
        refine ⟨rfl, by simp, by simp, ?_⟩
        intro j hj
        simp at hj
      · simp only [ht, Bool.false_eq_true, if_false]
        have hrec := ih (i + 1)
          (llm_query w cfg (if i = 0 then ip chunk else itp buffer chunk (i + 1) total)
            none none env).1
          (llm_query w cfg (if i = 0 then ip chunk else itp buffer chunk (i + 1) total)
            none none env).2
        refine ⟨by simp [hrec.1], by simp; omega, ?_, ?_⟩
        · simp only [List.getLastD_cons]
          exact hrec.2.2.1
        · intro j hj
          match j with
          | 0 =>
              simp only [List.getD_cons_zero]
              simpa using ht
          | j + 1 =>
              simp only [List.getD_cons_succ]
              apply hrec.2.2.2
              simp at hj
              omega

/-- Outcome of the iterative loop as launched by `process_iteratively`
on a fresh environment: the chunks are the fixed-size pieces, truncated
to `maxIter`, starting from iteration index 0 and an empty buffer. -/
def iterRun (w : World) (cfg : RLMConfig) (ct C : List Char)
    (ip : List Char → List Char)
    (itp : List Char → List Char → Nat → Nat → List Char)
    (tc : List Char → Bool) (maxIter csize : Nat) : IterOutcome :=
  iterPhase w cfg ip itp tc (chunkPieces csize C).length
    ((chunkPieces csize C).take maxIter) 0 []
    ⟨C, ct, C.length, chunkPieces csize C, csize, [], 0, 0, 0⟩

/-- Claim C6 (confirmed): the iterative strategy issues at most
`min(maxIterations, numChunks)` invocations, stops immediately after the
first invocation whose output satisfies `terminationCheck` (every
earlier output fails the check), and returns `finalAnswer` equal to the
buffer — the last invocation's full output — with `iterations` equal to
the number of invocations actually run. -/
theorem iterative_spec (w : World) (cfg : RLMConfig) (ct C : List Char)
    (ip : List Char → List Char)
    (itp : List Char → List Char → Nat → Nat → List Char)
    (tc : List Char → Bool) (maxIter csize : Nat) (hcs : 0 < csize) :
    process_iteratively w cfg (mkRLMContext C ct) ip itp tc maxIter csize =
      (.ok { PyResult.empty with
               success := some true
               final_answer := some (iterRun w cfg ct C ip itp tc maxIter csize).buffer
               iterations := some (iterRun w cfg ct C ip itp tc maxIter csize).history.length
               history := some (iterRun w cfg ct C ip itp tc maxIter csize).history
               stats := some (iterRun w cfg ct C ip itp tc maxIter csize).env.get_stats },
       (iterRun w cfg ct C ip itp tc maxIter csize).env) ∧
    (iterRun w cfg ct C ip itp tc maxIter csize).history.length ≤
      min maxIter (chunkPieces csize C).length ∧
    (iterRun w cfg ct C ip itp tc maxIter csize).outputs.length =
      (iterRun w cfg ct C ip itp tc maxIter csize).history.length ∧
    (iterRun w cfg ct C ip itp tc maxIter csize).buffer =
      (iterRun w cfg ct C ip itp tc maxIter csize).outputs.getLastD [] ∧
    (∀ j, j + 1 < (iterRun w cfg ct C ip itp tc maxIter csize).outputs.length →
      tc ((iterRun w cfg ct C ip itp tc maxIter csize).outputs.getD j []) = false) := by
  have hcbs := chunk_by_size_fresh C ct csize (by omega)
  have hspec := iterPhase_spec w cfg ip itp tc (chunkPieces csize C).length
    ((chunkPieces csize C).take maxIter) 0 []
    ⟨C, ct, C.length, chunkPieces csize C, csize, [], 0, 0, 0⟩
  refine ⟨?_, ?_, ?_, ?_, ?_⟩
  · simp only [process_iteratively, iterRun, hcbs]
  · unfold iterRun
    have := hspec.2.1
    simpa [List.length_take] using this
  · exact hspec.1
  · exact hspec.2.2.1
  · exact hspec.2.2.2

/-- Witness for C6: context `"abcd"`, chunk size 2, three iterations
allowed, a termination predicate that never fires. -/
theorem iterative_spec_witness :
    0 < 2 ∧
    (iterRun wOk cfgStd ("document".data) ("abcd".data) (fun c => c)
        (fun b c _ _ => b ++ c) (fun _ => false) 3 2).history.length ≤
      min 3 (chunkPieces 2 ("abcd".data)).length :=
  ⟨by decide,
   (iterative_spec wOk cfgStd ("document".data) ("abcd".data) (fun c => c)
     (fun b c _ _ => b ++ c) (fun _ => false) 3 2 (by decide)).2.1⟩

/-!
Claim C1: the sub-call budget across the strategies.
-/

/-- The map loop keeps the sub-call log within the budget: it breaks as
soon as the budget is reached. -/
theorem mapPhase_sub_calls_le (w : World) (cfg : RLMConfig)
    (mp : List Char → Nat → Nat → List Char) (cs total ctxLen : Nat) :
    ∀ (chunks : List (List Char)) (i : Nat) (env : RLMContext),
      env.sub_calls.length ≤ cfg.max_sub_calls →
      (mapPhase w cfg mp cs total ctxLen chunks i env).2.sub_calls.length ≤
        cfg.max_sub_calls := by
  intro chunks
  induction chunks with
  | nil =>
      intro i env h
      simpa [mapPhase] using h
  | cons chunk rest ih =>
      intro i env h
      simp only [mapPhase]
      by_cases hb : cfg.max_sub_calls ≤ env.sub_calls.length
      · simpa [hb] using h
      · rw [if_neg hb]
        apply ih
        have := llm_query_sub_calls_le w cfg (mp chunk (i + 1) total) none none env
        omega

/-- The extraction loop appends at most one record per retained
match. -/
theorem extractPhase_sub_calls_le (w : World) (cfg : RLMConfig)
    (ep : List Char → List Char → List Char) :
    ∀ (ms : List SearchHit) (env : RLMContext),
      (extractPhase w cfg ep ms env).2.sub_calls.length ≤
        env.sub_calls.length + ms.length := by
  intro ms
  induction ms with
  | nil =>
      intro env
      simp [extractPhase]
  | cons m rest ih =>
      intro env
      simp only [extractPhase]
      have h1 := llm_query_sub_calls_le w cfg (ep m.window m.match_text) none none env
      have h2 := ih (llm_query w cfg (ep m.window m.match_text) none none env).2
      simp only [List.length_cons]
      omega

/-- Claim C1, amended (the stated bound fails after the map phase): on a
fresh environment the sub-call log stays within `maxSubCalls` throughout
the map or extraction loop, but the final reduce or synthesis invocation
may append one more record, so at completion of the map-reduce and
search-extract strategies `len(subCalls) ≤ maxSubCalls + 1`. -/
theorem rlm_budget_amended (w : World) (cfg : RLMConfig) (env : RLMContext)
    (mp : List Char → Nat → Nat → List Char) (rp : List Char → Nat → List Char)
    (csize : Nat) (patterns : List (List Char))
    (ep : List Char → List Char → List Char) (sp : List Char → List Char)
    (henv : env.sub_calls = []) :
    (process_with_map_reduce w cfg env mp rp csize).2.sub_calls.length ≤
      cfg.max_sub_calls + 1 ∧
    (process_with_search_and_extract w cfg env patterns ep sp).2.sub_calls.length ≤
      cfg.max_sub_calls + 1 := by
  constructor
  · unfold process_with_map_reduce
    cases hcs : env.chunk_by_size csize with
    | error e => simp [henv]
    | ok pr =>
        obtain ⟨chunks, env1⟩ := pr
        have hpres := chunk_by_size_preserves env csize chunks env1 hcs
        have hmap := mapPhase_sub_calls_le w cfg mp csize chunks.length
          env1.context_length chunks 0 env1
          (by rw [hpres.1, henv]; exact Nat.zero_le _)
        refine le_trans (llm_query_sub_calls_le w cfg _ none none _) ?_
        exact Nat.add_le_add_right hmap 1
  · unfold process_with_search_and_extract
    by_cases hm :
        ((patterns.map (fun p => env.search p 10)).flatten).isEmpty = true
    · simp [hm, henv]
    · rw [if_neg (by simp [hm])]
      refine le_trans (llm_query_sub_calls_le w cfg _ none none _) ?_
      have hex := extractPhase_sub_calls_le w cfg ep
        ((dedupMatches [] ((patterns.map (fun p => env.search p 10)).flatten)).take
          cfg.max_sub_calls) env
      have hlen :
          ((dedupMatches [] ((patterns.map (fun p => env.search p 10)).flatten)).take
            cfg.max_sub_calls).length ≤ cfg.max_sub_calls := by
        simp [List.length_take]
      have h0 : env.sub_calls.length = 0 := by rw [henv]; rfl
      omega

/-- Witness for the amended C1 theorem on a fresh environment with
budget 1. -/
theorem rlm_budget_amended_witness :
    (mkRLMContext ("ab".data) ("document".data)).sub_calls = [] ∧
    ((process_with_map_reduce wOk cfgOne (mkRLMContext ("ab".data) ("document".data))
        tmplMap tmplReduce 1).2.sub_calls.length ≤ cfgOne.max_sub_calls + 1 ∧
     (process_with_search_and_extract wOk cfgOne
        (mkRLMContext ("ab".data) ("document".data)) [['a']] tmplExtract
        tmplSynth).2.sub_calls.length ≤ cfgOne.max_sub_calls + 1) :=
  ⟨rfl,
   rlm_budget_amended wOk cfgOne (mkRLMContext ("ab".data) ("document".data))
     tmplMap tmplReduce 1 [['a']] tmplExtract tmplSynth rfl⟩

/-- Counterexample to claim C1 as stated: with `maxSubCalls = 1` and two
chunks, the map phase stops at one record, but the reduce call still
runs and leaves two records in the log — `len(subCalls) = 2 > 1`. -/
theorem rlm_budget_counterexample :
    cfgOne.max_sub_calls = 1 ∧
    (process_with_map_reduce wOk cfgOne (mkRLMContext ("ab".data) ("document".data))
        tmplMap tmplReduce 1).2.sub_calls.length = 2 :=
  ⟨rfl, rfl⟩

/-!
Claim C2: the orchestrator never raises and always stamps metadata.
-/

/-- Claim C2 (confirmed): `rlm_query` is total — it returns a result
dict for every input (in the embedding no exception can escape, since
the body's `Except` is consumed here) — and the returned dict always
carries the query, the context length, the strategy name and the
timestamp; whenever the body raises, the result additionally has
`success = false` and `error = str(exception)`. -/
theorem rlm_query_metadata (w : World) (cfg : RLMConfig) (q C strat : List Char)
    (kwargs : RLMKwargs) :
    (rlm_query w cfg q C strat kwargs).query = some q ∧
    (rlm_query w cfg q C strat kwargs).context_length = some C.length ∧
    (rlm_query w cfg q C strat kwargs).strategy = some strat ∧
    (rlm_query w cfg q C strat kwargs).timestamp = some w.now ∧
    (∀ e, (rlm_query_body w cfg q C strat kwargs).1 = .error e →
      (rlm_query w cfg q C strat kwargs).success = some false ∧
      (rlm_query w cfg q C strat kwargs).error = some e) := by
  unfold rlm_query
  cases hb : (rlm_query_body w cfg q C strat kwargs).1 with
  | ok r =>
      refine ⟨by simp [stampMeta], by simp [stampMeta], by simp [stampMeta],
        by simp [stampMeta], ?_⟩
      intro e he
      simp at he
  | error e1 =>
      refine ⟨by simp [errorMeta], by simp [errorMeta], by simp [errorMeta],
        by simp [errorMeta], ?_⟩
      intro e he
      have he2 : e1 = e := by simpa using he
      subst he2
      exact ⟨by simp [errorMeta, PyResult.empty], by simp [errorMeta, PyResult.empty]⟩

/-- Witness for C2 on an input whose strategy body raises: the
whitespace-only query under `search_extract` (see C10). -/
theorem rlm_query_metadata_witness :
    (rlm_query wOk cfgStd (" ".data) ("abc".data) ("search_extract".data)
        RLMKwargs.noArgs).success = some false ∧
    (rlm_query wOk cfgStd (" ".data) ("abc".data) ("search_extract".data)
        RLMKwargs.noArgs).error = some ("list index out of range".data) :=
  (rlm_query_metadata wOk cfgStd (" ".data) ("abc".data) ("search_extract".data)
    RLMKwargs.noArgs).2.2.2.2 ("list index out of range".data) (by rfl)

/-!
Claim C10: whitespace-only query under `search_extract` without
explicit patterns.
-/

/-- Python `q.split()` of an all-whitespace string is empty. -/
theorem splitWsAux_nil : ∀ (q : List Char), q.all Char.isWhitespace = true →
    splitWsAux q [] = [] := by
  intro q
  induction q with
  | nil => intro _; rfl
  | cons c rest ih =>
      intro hq
      simp only [List.all_cons, Bool.and_eq_true] at hq
      simp only [splitWsAux, hq.1, if_true, List.isEmpty_nil]
      exact ih hq.2

/-- Claim C10 (confirmed): calling `rlm_query` with strategy
`search_extract`, a query containing no non-whitespace character and no
`search_patterns` keyword returns the top-level error dict for the
`IndexError` raised while deriving the default pattern
(`success=false`, `error="list index out of range"`), and the dispatch
issues zero sub-calls — the environment comes back with its oracle
invocation count still 0. -/
theorem rlm_query_whitespace_query (w : World) (cfg : RLMConfig)
    (C q : List Char) (kwargs : RLMKwargs)
    (hq : q.all Char.isWhitespace = true)
    (_hk : kwargs.search_patterns = none) :
    rlm_query w cfg q C ("search_extract".data) kwargs =
      errorMeta ("list index out of range".data) q C.length
        ("search_extract".data) w.now ∧
    (rlm_dispatch w cfg q ("search_extract".data) kwargs
        (mkRLMContext C (kwargs.context_type.getD ("document".data)))).2.invocations = 0 := by
  have hsp : splitWs q = [] := splitWsAux_nil q hq
  have hd : rlm_dispatch w cfg q ("search_extract".data) kwargs
      (mkRLMContext C (kwargs.context_type.getD ("document".data))) =
      (.error ("list index out of range".data),
       mkRLMContext C (kwargs.context_type.getD ("document".data))) := by
    unfold rlm_dispatch
    rw [if_neg (by decide), if_pos (by trivial), hsp]
  constructor
  · unfold rlm_query rlm_query_body
    rw [if_neg (by decide), hd]
  · rw [hd]
    rfl

/-- Witness for C10 at the single-space query over context `"abc"`. -/
theorem rlm_query_whitespace_query_witness :
    ((" ".data : List Char).all Char.isWhitespace = true ∧
      RLMKwargs.noArgs.search_patterns = none) ∧
    (rlm_query wFail cfgStd (" ".data) ("abc".data) ("search_extract".data)
        RLMKwargs.noArgs =
      errorMeta ("list index out of range".data) (" ".data) ("abc".data).length
        ("search_extract".data) wFail.now ∧
     (rlm_dispatch wFail cfgStd (" ".data) ("search_extract".data) RLMKwargs.noArgs
        (mkRLMContext ("abc".data)
          (RLMKwargs.noArgs.context_type.getD ("document".data)))).2.invocations = 0) :=
  ⟨⟨by decide, rfl⟩,
   rlm_query_whitespace_query wFail cfgStd ("abc".data) (" ".data) RLMKwargs.noArgs
     (by decide) rfl⟩
